import Mathlib

/-!
# rust-ffi-wordle: the GTK4 shell and the engine it calls

A shallow embedding of `wordle-gtk4/src/wordle_hints.c` and
`wordle-gtk4/src/wordle_app_window.c`, together with the part of the engine
(`wordle-core`, reached through the declarations in `wordle_core/*.h`) that
the shell calls.

Conventions of the embedding.

* A C string is the `List Char` of its characters before the terminating
  NUL; `strlen` is `List.length`.
* `int`, `uint32_t` and `size_t` quantities (word lengths, row and column
  indices) are natural numbers.  The one 8-bit quantity of the program, the
  `char length` of `text_with_foreground_color`, wraps around as a signed
  char does.
  `char` is taken signed, as on x86-64.
* A heap buffer is the string written to it.  `malloc` returns `NULL` for a
  request above `PTRDIFF_MAX` and a buffer of the requested size otherwise.
  A `sprintf` whose output and NUL take more bytes than the buffer has writes
  past it: the function doing so has no result (`none`).  The sizes requested
  are definitions of their own (`loose_message_length`,
  `text_with_foreground_color_size`), as are the indices written to
  `loose_message` (`loose_message_written_indices`); the NUL that
  `on_game_lost` stores at index `length`, one byte past that buffer, leaves
  the string in it as it is.
* `_( )` returns its argument: no message catalogue is among the sources.
* A widget is the record of the properties the program sets on it.
* An engine handle that may be `NULL` is an `Option`; a function that hands
  a `NULL` handle to the engine has no result (`none`).
* The random draw of the word picker is an argument, `draw`.
-/

namespace Wordle

/-! ## wordle_core/hint.h -/

/-- The enum `wc_letter_hint` of `hint.h`. -/
inductive wc_letter_hint where
  | WC_LETTER_HINT_CORRECT
  | WC_LETTER_HINT_PLACEMENT_INCORRECT
  | WC_LETTER_HINT_INCORRECT
  deriving DecidableEq, Repr

open wc_letter_hint

/-- The struct `wc_guessed_letter_and_hint` of `hint.h`. -/
structure wc_guessed_letter_and_hint where
  letter : Char
  hint : wc_letter_hint
  deriving DecidableEq, Repr

/-- The value behind a `wc_guess_hint_t` handle: the guessed word, read by
`wc_guess_hint_get_guessed`, and the array read by
`wc_guess_hint_get_guessed_letters_and_hints`. -/
structure GuessHint where
  guessed : List Char
  letters_and_hints : List wc_guessed_letter_and_hint
  deriving DecidableEq, Repr

/-! ## Hint computation (engine) -/

/-- Modelled from the spec: first pass of the hint computation of
`wordle-core` (its source is not among the files; spec section 4.2, step 1).
Walks the positions of the guess against the target; a position whose letters
agree is marked `Correct` (`true`) and one occurrence of the letter is
consumed from the multiset `available`.  Returns the marks and what is left of
the multiset. -/
def first_pass : List Char → List Char → List Char → List Bool × List Char
  | [], _, available => ([], available)
  | _ :: guess, [], available =>
      let r := first_pass guess [] available
      (false :: r.1, r.2)
  | g :: guess, t :: target, available =>
      if g = t then
        let r := first_pass guess target (available.erase g)
        (true :: r.1, r.2)
      else
        let r := first_pass guess target available
        (false :: r.1, r.2)

/-- Modelled from the spec: second pass of the hint computation of
`wordle-core` (spec section 4.2, step 2).  Left to right over the positions:
a position marked in the first pass stays `Correct`; any other position is
`PlacementIncorrect` when its letter still has an occurrence in `available`,
which is then consumed, and `Incorrect` otherwise. -/
def second_pass : List Char → List Bool → List Char → List wc_guessed_letter_and_hint
  | [], _, _ => []
  | g :: guess, true :: marks, available =>
      ⟨g, WC_LETTER_HINT_CORRECT⟩ :: second_pass guess marks available
  | g :: guess, marks, available =>
      if g ∈ available then
        ⟨g, WC_LETTER_HINT_PLACEMENT_INCORRECT⟩ ::
          second_pass guess marks.tail (available.erase g)
      else
        ⟨g, WC_LETTER_HINT_INCORRECT⟩ :: second_pass guess marks.tail available

/-- Modelled from the spec: the hint computation of `wordle-core` (spec
section 4.2): the available multiset starts as the letters of the target, the
first pass marks the exact matches, the second pass the misplaced letters. -/
def compute_guess_hint (target guess : List Char) : GuessHint :=
  let r := first_pass guess target target
  { guessed := guess, letters_and_hints := second_pass guess r.1 r.2 }

/-- Number of positions of a letters-and-hints array whose guessed letter is
`l` and whose hint is `Correct` or `PlacementIncorrect`. -/
def count_placed (l : Char) (hints : List wc_guessed_letter_and_hint) : Nat :=
  hints.countP fun p =>
    p.letter = l ∧ (p.hint = WC_LETTER_HINT_CORRECT ∨ p.hint = WC_LETTER_HINT_PLACEMENT_INCORRECT)

/-- Number of positions marked in the first pass whose guessed letter is `l`. -/
def count_marked (l : Char) (guess : List Char) (marks : List Bool) : Nat :=
  (guess.zip marks).countP fun p => p.1 = l ∧ p.2 = true

/-! ## wordle_core/game.h and wordle_core/picker.h (engine) -/

/-- The enum `wc_game_state` of `game.h`. -/
inductive wc_game_state where
  | WC_GAME_STATE_PENDING
  | WC_GAME_STATE_WON
  | WC_GAME_STATE_LOST
  deriving DecidableEq, Repr

/-- The enum `wc_game_guess_error` of `game.h`. -/
inductive wc_game_guess_error where
  | WC_GAME_GUESS_ERROR_LENGTH_INVALID
  | WC_GAME_GUESS_ERROR_ALREADY_PLAYED
  deriving DecidableEq, Repr

open wc_game_state wc_game_guess_error

/-- Modelled from the spec: the value behind a `wc_game_t` handle (spec
section 3, Game): the target word, the optional attempt limit and the guess
hints in submission order. -/
structure Game where
  word_to_guess : List Char
  attempts_count_limit : Option Nat
  guess_hints : List GuessHint
  deriving DecidableEq, Repr

/-- Modelled from the spec: `wc_game_new_with_attempts_count_limit` and
`wc_game_new` share this constructor (section 4.3, Construction): it fails,
giving the `NULL` handle, on an empty target word. -/
def Game.create (word_to_guess : List Char) (attempts_count_limit : Option Nat) : Option Game :=
  if word_to_guess = [] then none
  else some { word_to_guess := word_to_guess, attempts_count_limit := attempts_count_limit,
              guess_hints := [] }

/-- Modelled from the spec: `wc_game_new`, a game without attempt limit. -/
def wc_game_new (word_to_guess : List Char) : Option Game :=
  Game.create word_to_guess none

/-- Modelled from the spec: `wc_game_new_with_attempts_count_limit`. -/
def wc_game_new_with_attempts_count_limit (word_to_guess : List Char)
    (attempts_count_limit : Nat) : Option Game :=
  Game.create word_to_guess (some attempts_count_limit)

/-- Modelled from the spec: `wc_game_get_word_to_guess`, a copy of the target. -/
def wc_game_get_word_to_guess (game : Game) : List Char :=
  game.word_to_guess

/-- Modelled from the spec: `wc_game_get_guess_hints`, the history as the
linked list of `wc_guess_hint_list_node_t`, first guess first. -/
def wc_game_get_guess_hints (game : Game) : List GuessHint :=
  game.guess_hints

/-- Modelled from the spec: `wc_game_get_current_guess_hint`, the most
recently recorded guess hint, `NULL` when there is none. -/
def wc_game_get_current_guess_hint (game : Game) : Option GuessHint :=
  game.guess_hints.getLast?

/-- Modelled from the spec: `wc_guess_hint_get_guessed`. -/
def wc_guess_hint_get_guessed (guess_hint : GuessHint) : List Char :=
  guess_hint.guessed

/-- Modelled from the spec: `wc_guess_hint_get_guessed_letters_and_hints`. -/
def wc_guess_hint_get_guessed_letters_and_hints (guess_hint : GuessHint) :
    List wc_guessed_letter_and_hint :=
  guess_hint.letters_and_hints

/-- Modelled from the spec: `wc_game_get_state` (section 3, Game State, and
section 4.3): won when the most recent guess is the target, else lost when the
history has reached the attempt limit, else pending. -/
def wc_game_get_state (game : Game) : wc_game_state :=
  if (game.guess_hints.getLast?.map fun h => h.guessed) = some game.word_to_guess then
    WC_GAME_STATE_WON
  else
    match game.attempts_count_limit with
    | some limit =>
        if limit ≤ game.guess_hints.length then WC_GAME_STATE_LOST else WC_GAME_STATE_PENDING
    | none => WC_GAME_STATE_PENDING

/-- What `wc_game_guess` hands back: its `int` result, the error and the state
written through its two pointers, and the game after the call. -/
structure GuessResult where
  ok : Bool
  error : Option wc_game_guess_error
  new_state : wc_game_state
  game : Game
  deriving DecidableEq, Repr

/-- Modelled from the spec: `wc_game_guess` (section 4.3, Submit guess).  The
length is validated first, then the history; a rejected guess changes nothing.
An accepted guess is scored against the target and appended to the history.
As in the original, no check of a terminal state precedes the scoring. -/
def wc_game_guess (game : Game) (guessed_word : List Char) : GuessResult :=
  if guessed_word.length ≠ game.word_to_guess.length then
    { ok := false, error := some WC_GAME_GUESS_ERROR_LENGTH_INVALID,
      new_state := wc_game_get_state game, game := game }
  else if game.guess_hints.any (fun h => h.guessed = guessed_word) then
    { ok := false, error := some WC_GAME_GUESS_ERROR_ALREADY_PLAYED,
      new_state := wc_game_get_state game, game := game }
  else
    let game' : Game :=
      { game with
        guess_hints := game.guess_hints ++ [compute_guess_hint game.word_to_guess guessed_word] }
    { ok := true, error := none, new_state := wc_game_get_state game', game := game' }

/-- Modelled from the spec: the value behind a `wc_word_picker_t` handle, the
candidate words loaded at construction (section 4.1). -/
structure WordPicker where
  words : List (List Char)
  deriving DecidableEq, Repr

/-- Modelled from the spec: `wc_word_picker_new_from_list`. -/
def wc_word_picker_new_from_list (words : List (List Char)) : WordPicker :=
  { words := words }

/-- Modelled from the spec: `wc_word_picker_new_random_line_file` (section
4.1, from external line source).  `lines` is what reading the file at the path
gives: `none` when it cannot be opened or read, else its lines without their
line endings.  Empty lines are not candidates; construction fails with the
`NULL` handle when the file is unreadable or no candidate is left. -/
def wc_word_picker_new_random_line_file (lines : Option (List (List Char))) : Option WordPicker :=
  match lines with
  | none => none
  | some ls =>
      if ls.filter (fun line => line ≠ []) = [] then none
      else some { words := ls.filter (fun line => line ≠ []) }

/-- Modelled from the spec: `wc_word_picker_pick_word` (section 4.1, Pick): one
candidate, drawn with replacement.  The random number of the draw is the
argument `draw`. -/
def wc_word_picker_pick_word (picker : WordPicker) (draw : Nat) : List Char :=
  picker.words.getD (draw % picker.words.length) []

/-! ## libc -/

/-- The `strlen` of libc. -/
def strlen (s : List Char) : Nat := s.length

/-- The `toupper` of libc on a byte of UTF-8 text: the letters a to z go to A
to Z, every other character is returned as it is. -/
def toupper (c : Char) : Char :=
  if 97 ≤ c.toNat ∧ c.toNat ≤ 122 then Char.ofNat (c.toNat - 32) else c

/-- An argument of `sprintf`. -/
inductive printf_arg where
  | str (s : List Char)
  | chr (c : Char)
  deriving DecidableEq, Repr

/-- The characters `sprintf` writes before the terminating NUL, for the
directives the formats of this program use: `%s`, `%c` and `%%`. -/
def sprintf : List Char → List printf_arg → List Char
  | [], _ => []
  | '%' :: 's' :: format, printf_arg.str s :: args => s ++ sprintf format args
  | '%' :: 'c' :: format, printf_arg.chr c :: args => c :: sprintf format args
  | '%' :: '%' :: format, args => '%' :: sprintf format args
  | c :: format, args => c :: sprintf format args

/-- The `gettext` behind the `_( )` of `glib/gi18n.h`: no message catalogue
comes with the sources, a message is returned untranslated. -/
def gettext (msgid : List Char) : List Char := msgid

/-- Conversion of an integer to `char`, a signed 8-bit type. -/
def to_char (n : Int) : Int := (n + 128) % 256 - 128

/-- Conversion of an `int` to `size_t`, an unsigned 64-bit type. -/
def to_size_t (n : Int) : Nat := (n % 2 ^ 64).toNat

/-- The largest object size, `PTRDIFF_MAX`. -/
def PTRDIFF_MAX : Nat := 2 ^ 63 - 1

/-- Whether `malloc` returns `NULL`: it does for a request above `PTRDIFF_MAX`. -/
def malloc_fails (size : Nat) : Bool := decide (PTRDIFF_MAX < size)

/-! ## wordle_hints.c -/

/-- A child of the `GtkGrid`: the label attached by `gtk_grid_attach`, with
its column and its row. -/
structure GridChild where
  column : Nat
  row : Nat
  label : List Char
  deriving DecidableEq, Repr

/-- The struct `_WordleHints`: the `word_length` label and the `grid`, whose
children are listed first child first. -/
structure WordleHints where
  word_length_visible : Bool
  word_length_text : List Char
  grid_visible : Bool
  grid : List GridChild
  deriving DecidableEq, Repr

/-- The loop of `wordle_hints_clear`: `iter` is the head of the children left;
removing it from the grid leaves its next siblings, with which the loop goes
on.  Returns the children of the grid when the loop ends. -/
def wordle_hints_clear_loop : List GridChild → List GridChild
  | [] => []
  | _iter :: next => wordle_hints_clear_loop next

/-- The function `wordle_hints_clear`. -/
def wordle_hints_clear (wordle_hints : WordleHints) : WordleHints :=
  { wordle_hints with grid := wordle_hints_clear_loop wordle_hints.grid }

/-- The function `int_to_string`: `snprintf` with `"%d"`. -/
def int_to_string (number : Nat) : List Char :=
  Nat.toDigits 10 number

/-- The function `wordle_hints_reset`.  The buffer of the label text has a few
bytes, `malloc` gives it and the early `return` is not taken. -/
def wordle_hints_reset (wordle_hints : WordleHints) (guess_word_length : Nat) : WordleHints :=
  let wordle_hints := wordle_hints_clear wordle_hints
  let wordle_hints := { wordle_hints with word_length_visible := true }
  let wordle_hints := { wordle_hints with grid_visible := false }
  let word_length_string := int_to_string guess_word_length
  let word_length_label :=
    sprintf (gettext "Word length: %s".toList) [printf_arg.str word_length_string]
  { wordle_hints with word_length_text := word_length_label }

/-- The function `generate_label_markup`; its `total_length` is a `size_t`
and the buffer has room for the markup and its NUL. -/
def generate_label_markup (color : List Char) (letter : Char) : List Char :=
  let pfx := "<span foreground='white' background='".toList
  let middle := "'> ".toList
  let suffix := " </span>".toList
  sprintf "%s%s%s%c%s".toList
    [printf_arg.str pfx, printf_arg.str color, printf_arg.str middle, printf_arg.chr letter,
     printf_arg.str suffix]

/-- The loop of `grid_get_rows_count`, from the child `iter` on. -/
def grid_get_rows_count_loop : List GridChild → Nat → Nat
  | [], max_row => max_row
  | iter :: next, max_row => grid_get_rows_count_loop next (max max_row iter.row)

/-- The function `grid_get_rows_count`. -/
def grid_get_rows_count (grid : List GridChild) : Nat :=
  grid_get_rows_count_loop grid 0 + 1

/-- The function `get_letter_hint_color`.  The `default` label of its
`switch` stands for values outside the enum, which the type does not have. -/
def get_letter_hint_color (letter_hint : wc_letter_hint) : List Char :=
  match letter_hint with
  | WC_LETTER_HINT_CORRECT => "green".toList
  | WC_LETTER_HINT_PLACEMENT_INCORRECT => "yellow".toList
  | WC_LETTER_HINT_INCORRECT => "gray".toList

/-- The loop of `wordle_hints_add_guess_row`: `x` is the loop counter, the
list holds the entries `hints[x]`, `hints[x + 1]`, ... still to be attached. -/
def wordle_hints_add_guess_row_loop (rows_count : Nat) :
    Nat → List wc_guessed_letter_and_hint → List GridChild → List GridChild
  | _, [], grid => grid
  | x, entry :: rest, grid =>
      let letter_hint_color := get_letter_hint_color entry.hint
      let letter_string := generate_label_markup letter_hint_color entry.letter
      wordle_hints_add_guess_row_loop rows_count (x + 1) rest
        (grid ++ [{ column := x, row := rows_count, label := letter_string }])

/-- The function `wordle_hints_add_guess_row`. -/
def wordle_hints_add_guess_row (wordle_hints : WordleHints) (guess_hint : GuessHint) :
    WordleHints :=
  let letters_and_hints := wc_guess_hint_get_guessed_letters_and_hints guess_hint
  let wordle_hints := { wordle_hints with word_length_visible := false }
  let wordle_hints := { wordle_hints with grid_visible := true }
  let rows_count := grid_get_rows_count wordle_hints.grid
  { wordle_hints with
    grid := wordle_hints_add_guess_row_loop rows_count 0 letters_and_hints wordle_hints.grid }

/-! ## wordle_app_window.c -/

/-- The struct `_WordleAppWindow`: the text and the sensitivity of the
`guess_word` entry, the visibility of the `submit` and `reset` buttons, the
visibility of the `end_state` label and the markup last handed to it (`none`
for a `NULL` markup), the hints widget, the word picker and the game (`none`
for the `NULL` handle). -/
structure WordleAppWindow where
  guess_word_text : List Char
  guess_word_sensitive : Bool
  submit_visible : Bool
  reset_visible : Bool
  end_state_visible : Bool
  end_state_markup : Option (List Char)
  hints : WordleHints
  word_picker : WordPicker
  game : Option Game
  deriving DecidableEq, Repr

/-- The function `reset_game`; `draw` is the random number of the pick. -/
def reset_game (window : WordleAppWindow) (draw : Nat) : WordleAppWindow :=
  let window := if window.game ≠ none then { window with game := none } else window
  let new_word := wc_word_picker_pick_word window.word_picker draw
  let window := { window with game := wc_game_new new_word }
  { window with hints := wordle_hints_reset window.hints (strlen new_word) }

/-- The function `wordle_app_window_open`.  `file` is `none` for a `NULL` file
and else what reading the file at its path gives (see
`wc_word_picker_new_random_line_file`). -/
def wordle_app_window_open (window : WordleAppWindow)
    (file : Option (Option (List (List Char)))) (draw : Nat) : WordleAppWindow :=
  match file with
  | none => window
  | some lines =>
      match wc_word_picker_new_random_line_file lines with
      | some new_picker =>
          let window := { window with word_picker := new_picker }
          reset_game window draw
      | none => window

/-- The loop of `get_current_guessed_word` over the copy of the entry text. -/
def get_current_guessed_word_loop : List Char → List Char
  | [] => []
  | c :: guessed_iter => toupper c :: get_current_guessed_word_loop guessed_iter

/-- The function `get_current_guessed_word`. -/
def get_current_guessed_word (window : WordleAppWindow) : List Char :=
  get_current_guessed_word_loop window.guess_word_text

/-- The function `clear_guess_entry`. -/
def clear_guess_entry (window : WordleAppWindow) : WordleAppWindow :=
  { window with guess_word_text := [] }

/-- The function `word_has_correct_length`. -/
def word_has_correct_length (window : WordleAppWindow) (guess_word : List Char) : Option Bool :=
  match window.game with
  | none => none
  | some game =>
      let word_to_guess := wc_game_get_word_to_guess game
      let to_guess_length := strlen word_to_guess
      some (decide (strlen guess_word = to_guess_length))

/-- The loop of `word_has_been_guessed_before` over the nodes of the list. -/
def word_has_been_guessed_before_loop (guess_word : List Char) : List GuessHint → Bool
  | [] => false
  | guess_hint :: next =>
      let guessed := wc_guess_hint_get_guessed guess_hint
      if guess_word = guessed then true
      else word_has_been_guessed_before_loop guess_word next

/-- The function `word_has_been_guessed_before`; `strcmp` gives 0 on equal
strings. -/
def word_has_been_guessed_before (window : WordleAppWindow) (guess_word : List Char) :
    Option Bool :=
  match window.game with
  | none => none
  | some game =>
      let first_node := wc_game_get_guess_hints game
      some (word_has_been_guessed_before_loop guess_word first_node)

/-- The function `can_guess_word`: the right operand of `&&` is evaluated
only when the left one is not 0. -/
def can_guess_word (window : WordleAppWindow) (guess_word : List Char) : Option Bool :=
  match word_has_correct_length window guess_word with
  | none => none
  | some false => some false
  | some true =>
      match word_has_been_guessed_before window guess_word with
      | none => none
      | some before => some (!before)

/-- The function `freeze_guess_entry`. -/
def freeze_guess_entry (window : WordleAppWindow) : WordleAppWindow :=
  { window with guess_word_sensitive := false }

/-- The function `unfreeze_guess_entry`. -/
def unfreeze_guess_entry (window : WordleAppWindow) : WordleAppWindow :=
  { window with guess_word_sensitive := true }

/-- The function `show_reset_button_hide_submit_button`. -/
def show_reset_button_hide_submit_button (window : WordleAppWindow) : WordleAppWindow :=
  let window := { window with reset_visible := true }
  { window with submit_visible := false }

/-- The function `show_submit_button_hide_reset_button`. -/
def show_submit_button_hide_reset_button (window : WordleAppWindow) : WordleAppWindow :=
  let window := { window with submit_visible := true }
  { window with reset_visible := false }

/-- The value of the variable `char length` of `text_with_foreground_color`. -/
def text_with_foreground_color_length (text color : List Char) : Int :=
  let pfx := "<span color='".toList
  let middle := "'>".toList
  let suffix := "</span>".toList
  to_char (strlen pfx + strlen color + strlen middle + strlen text + strlen suffix : Nat)

/-- The size `text_with_foreground_color` hands to `malloc`:
`sizeof(*result) * (length + 1)`, the `int` `length + 1` converted to `size_t`. -/
def text_with_foreground_color_size (text color : List Char) : Nat :=
  to_size_t (text_with_foreground_color_length text color + 1)

/-- The markup `text_with_foreground_color` writes with `sprintf`, before the
terminating NUL. -/
def text_with_foreground_color_markup (text color : List Char) : List Char :=
  let pfx := "<span color='".toList
  let middle := "'>".toList
  let suffix := "</span>".toList
  sprintf "%s%s%s%s%s".toList
    [printf_arg.str pfx, printf_arg.str color, printf_arg.str middle, printf_arg.str text,
     printf_arg.str suffix]

/-- The function `text_with_foreground_color`.  The inner `none` is its `NULL`
result, returned when `malloc` gives no buffer.  When `malloc` gives a buffer
of fewer bytes than the markup and its NUL take, `sprintf` writes past the
buffer and the function has no result (the outer `none`). -/
def text_with_foreground_color (text color : List Char) : Option (Option (List Char)) :=
  let size := text_with_foreground_color_size text color
  if malloc_fails size then some none
  else if size < strlen (text_with_foreground_color_markup text color) + 1 then none
  else some (some (text_with_foreground_color_markup text color))

/-- The size `length` that `on_game_lost` allocates for `loose_message`. -/
def loose_message_length (loose_message_format word_to_guess : List Char) : Nat :=
  strlen loose_message_format + strlen word_to_guess

/-- The string in `loose_message` when `on_game_lost` has written it: the
output of `sprintf`, cut by the NUL stored at index `length`. -/
def loose_message (loose_message_format word_to_guess : List Char) : List Char :=
  let length := loose_message_length loose_message_format word_to_guess
  let loose_message := sprintf loose_message_format [printf_arg.str word_to_guess]
  loose_message.take length

/-- The indices of `loose_message` that the `sprintf` of `on_game_lost` writes:
one for each character of its output and one more for the terminating NUL. -/
def loose_message_sprintf_indices (loose_message_format word_to_guess : List Char) : List Nat :=
  List.range (strlen (sprintf loose_message_format [printf_arg.str word_to_guess]) + 1)

/-- The indices of `loose_message` that `on_game_lost` writes: those of the
`sprintf`, then the index `length` of `loose_message[length] = 0`. -/
def loose_message_written_indices (loose_message_format word_to_guess : List Char) : List Nat :=
  loose_message_sprintf_indices loose_message_format word_to_guess
    ++ [loose_message_length loose_message_format word_to_guess]

/-- The function `on_game_lost`.  There is no result when the game handle is
`NULL` or when `text_with_foreground_color` has none. -/
def on_game_lost (window : WordleAppWindow) : Option WordleAppWindow :=
  let window := freeze_guess_entry window
  let window := show_reset_button_hide_submit_button window
  match window.game with
  | none => none
  | some game =>
      let word_to_guess := wc_game_get_word_to_guess game
      let loose_message_format := gettext "You lost! The word was %s.".toList
      match text_with_foreground_color (loose_message loose_message_format word_to_guess)
          "red".toList with
      | none => none
      | some loose_text =>
          let window := { window with end_state_markup := loose_text }
          some { window with end_state_visible := true }

/-- The function `on_game_won`.  There is no result when
`text_with_foreground_color` has none. -/
def on_game_won (window : WordleAppWindow) : Option WordleAppWindow :=
  let window := freeze_guess_entry window
  let window := show_reset_button_hide_submit_button window
  match text_with_foreground_color (gettext "You won!".toList) "green".toList with
  | none => none
  | some win_text =>
      let window := { window with end_state_markup := win_text }
      some { window with end_state_visible := true }

/-- The function `make_guess`.  There is no result when the game handle is
`NULL`, when the current guess hint handed to the hints widget is `NULL`, or
when `on_game_lost` or `on_game_won` has none.
The `default` label of its `switch` stands for values outside the enum. -/
def make_guess (window : WordleAppWindow) (guessed : List Char) : Option WordleAppWindow :=
  match window.game with
  | none => none
  | some game =>
      let result := wc_game_guess game guessed
      let game_state := result.new_state
      let window := { window with game := some result.game }
      match wc_game_get_current_guess_hint result.game with
      | none => none
      | some guess_hint =>
          let window :=
            { window with hints := wordle_hints_add_guess_row window.hints guess_hint }
          match game_state with
          | WC_GAME_STATE_PENDING => some window
          | WC_GAME_STATE_LOST => on_game_lost window
          | WC_GAME_STATE_WON => on_game_won window

/-- The function `try_to_guess_word`. -/
def try_to_guess_word (window : WordleAppWindow) : Option WordleAppWindow :=
  let guessed := get_current_guessed_word window
  match can_guess_word window guessed with
  | none => none
  | some false => some window
  | some true =>
      let window := clear_guess_entry window
      make_guess window guessed

/-- The function `on_guess_entry_activate`. -/
def on_guess_entry_activate (window : WordleAppWindow) : Option WordleAppWindow :=
  try_to_guess_word window

/-- The function `on_submit_clicked`. -/
def on_submit_clicked (window : WordleAppWindow) : Option WordleAppWindow :=
  try_to_guess_word window

/-- The function `on_reset_clicked`; `draw` is the random number of the pick. -/
def on_reset_clicked (window : WordleAppWindow) (draw : Nat) : WordleAppWindow :=
  let window := reset_game window draw
  let window := unfreeze_guess_entry window
  let window := show_submit_button_hide_reset_button window
  { window with end_state_visible := false }

/-- The children that render a guess hint in the row `row`: the entry at
position `x` is the label of column `x`. -/
def guess_row (row : Nat) (guess_hint : GuessHint) : List GridChild :=
  (guess_hint.letters_and_hints.enumFrom 0).map fun entry =>
    { column := entry.1, row := row,
      label := generate_label_markup (get_letter_hint_color entry.2.hint) entry.2.letter }

/-! ## A concrete window -/

/-- A window during a game: the entry sensitive with the text `speed` typed
into it, submit shown, reset and the end-state label hidden, an empty grid,
the picker of `wordle_app_window_init` and a game on the word ERASE. -/
def example_window : WordleAppWindow :=
  { guess_word_text := "speed".toList
    guess_word_sensitive := true
    submit_visible := true
    reset_visible := false
    end_state_visible := false
    end_state_markup := some []
    hints := { word_length_visible := true, word_length_text := "Word length: 5".toList,
               grid_visible := false, grid := [] }
    word_picker := wc_word_picker_new_from_list ["wordle".toList, "wordlerust".toList]
    game := wc_game_new "ERASE".toList }

/-- The game of `example_window`. -/
def example_game : Game :=
  { word_to_guess := "ERASE".toList, attempts_count_limit := none, guess_hints := [] }

/-- A target word of 79 letters. -/
def long_word : List Char := List.replicate 79 'A'

/-- The window `example_window` with a game on `long_word`. -/
def long_word_window : WordleAppWindow :=
  { example_window with game := wc_game_new long_word }

/-- A target word of 207 letters. -/
def very_long_word : List Char := List.replicate 207 'A'

/-- A guess of 207 letters that is not `very_long_word`. -/
def very_long_guess : List Char := List.replicate 207 'B'

/-- A game on `very_long_word` that allows one attempt. -/
def very_long_game : Game :=
  { word_to_guess := very_long_word, attempts_count_limit := some 1, guess_hints := [] }

/-- The window `example_window` with the game `very_long_game`. -/
def very_long_window : WordleAppWindow :=
  { example_window with game := some very_long_game }

/-- A game on the word ERASE that allows one attempt. -/
def limited_game : Game :=
  { word_to_guess := "ERASE".toList, attempts_count_limit := some 1, guess_hints := [] }

/-- The window `example_window` with the game `limited_game`. -/
def limited_window : WordleAppWindow :=
  { example_window with game := some limited_game }

/-! ## Theorems: hint computation -/

theorem count_marked_nil_left (l : Char) (marks : List Bool) : count_marked l [] marks = 0 := by
  simp [count_marked]

theorem count_marked_nil_right (l : Char) (guess : List Char) : count_marked l guess [] = 0 := by
  simp [count_marked]

theorem count_marked_cons (l g : Char) (guess : List Char) (m : Bool) (marks : List Bool) :
    count_marked l (g :: guess) (m :: marks)
      = count_marked l guess marks + (if g = l ∧ m = true then 1 else 0) := by
  simp [count_marked, List.countP_cons]

theorem count_placed_cons (l : Char) (p : wc_guessed_letter_and_hint)
    (hints : List wc_guessed_letter_and_hint) :
    count_placed l (p :: hints)
      = count_placed l hints
        + (if p.letter = l ∧ (p.hint = WC_LETTER_HINT_CORRECT
            ∨ p.hint = WC_LETTER_HINT_PLACEMENT_INCORRECT) then 1 else 0) := by
  simp [count_placed, List.countP_cons]

/-- The first pass consumes from the available multiset exactly the letters it
marks, as long as the letters of the remaining target are still available. -/
theorem first_pass_count (l : Char) (guess : List Char) :
    ∀ (target available : List Char),
      (∀ c, target.count c ≤ available.count c) →
      (first_pass guess target available).2.count l
        + count_marked l guess (first_pass guess target available).1 = available.count l := by
  induction guess with
  | nil => intro target available _; simp [first_pass, count_marked_nil_left]
  | cons g guess ih =>
    intro target available h
    cases target with
    | nil =>
      have := ih [] available (by simp)
      simp only [first_pass, count_marked_cons]
      simpa using this
    | cons t target =>
      by_cases hgt : g = t
      · subst hgt
        have hg : 1 ≤ available.count g := by
          have := h g
          simp at this
          omega
        have hsub : ∀ c, target.count c ≤ (available.erase g).count c := by
          intro c
          have := h c
          by_cases hc : c = g
          · subst hc
            simp at this ⊢
            omega
          · rw [List.count_erase_of_ne hc]
            rw [List.count_cons_of_ne hc] at this
            exact this
        have := ih target (available.erase g) hsub
        simp only [first_pass, count_marked_cons, if_true]
        by_cases hl : g = l
        · subst hl
          simp at this ⊢
          omega
        · have hl2 : l ≠ g := fun e => hl e.symm
          rw [List.count_erase_of_ne hl2] at this
          simp [hl]
          exact this
      · have hsub : ∀ c, target.count c ≤ available.count c := by
          intro c
          have := h c
          rw [List.count_cons] at this
          omega
        have := ih target available hsub
        simp only [first_pass, hgt, if_false, count_marked_cons]
        simpa using this

/-- The second pass places a letter at most as often as the first pass marked
it plus its occurrences left in the available multiset. -/
theorem second_pass_count (l : Char) (guess : List Char) :
    ∀ (marks : List Bool) (available : List Char),
      count_placed l (second_pass guess marks available)
        ≤ count_marked l guess marks + available.count l := by
  induction guess with
  | nil => intro marks available; simp [second_pass, count_placed]
  | cons g guess ih =>
    intro marks available
    have step : ∀ (rest : List Bool),
        count_placed l (second_pass (g :: guess) marks available)
          = (if g ∈ available then
              count_placed l (second_pass guess rest (available.erase g)) + (if g = l then 1 else 0)
             else count_placed l (second_pass guess rest available)) →
        count_marked l guess rest ≤ count_marked l (g :: guess) marks →
        count_placed l (second_pass (g :: guess) marks available)
          ≤ count_marked l (g :: guess) marks + available.count l := by
      intro rest hstep hle
      rw [hstep]
      by_cases hmem : g ∈ available
      · have h1 := ih rest (available.erase g)
        have hpos : 0 < available.count g := List.count_pos_iff.mpr hmem
        simp only [hmem, if_true]
        by_cases hl : g = l
        · subst hl
          simp at h1 ⊢
          omega
        · have hl2 : l ≠ g := fun e => hl e.symm
          rw [List.count_erase_of_ne hl2] at h1
          simp [hl]
          omega
      · have h1 := ih rest available
        simp only [hmem, if_false]
        omega
    cases marks with
    | nil =>
      apply step []
      · by_cases hmem : g ∈ available <;> simp [second_pass, hmem, count_placed_cons]
      · simp [count_marked_nil_right]
    | cons m marks =>
      cases m with
      | true =>
        have h1 := ih marks available
        simp only [second_pass, count_marked_cons, count_placed_cons]
        by_cases hl : g = l <;> simp [hl] <;> omega
      | false =>
        apply step marks
        · by_cases hmem : g ∈ available <;> simp [second_pass, hmem, count_placed_cons]
        · simp [count_marked_cons]

/-- C1. For every target word and every guess of the same length, and for
every letter, the number of positions of the computed guess hint whose guessed
letter is that letter and whose hint is Correct or PlacementIncorrect is at
most the number of occurrences of the letter in the target. -/
theorem placed_letters_le_target_occurrences (target guess : List Char) (l : Char)
    (hlen : guess.length = target.length) :
    count_placed l (compute_guess_hint target guess).letters_and_hints ≤ target.count l := by
  have h1 := first_pass_count l guess target target (fun _ => le_refl _)
  have h2 := second_pass_count l guess (first_pass guess target target).1
    (first_pass guess target target).2
  simp only [compute_guess_hint]
  omega

/-- Witness for C1: target SPEED, guess ERASE, letter E. -/
theorem placed_letters_le_target_occurrences_witness :
    "ERASE".toList.length = "SPEED".toList.length ∧
    count_placed 'E' (compute_guess_hint "SPEED".toList "ERASE".toList).letters_and_hints
      ≤ "SPEED".toList.count 'E' :=
  ⟨by decide, placed_letters_le_target_occurrences "SPEED".toList "ERASE".toList 'E' (by decide)⟩

/-! ## Theorems: the markup buffer -/

theorem sprintf_five_strings (a b c d e : List Char) :
    sprintf "%s%s%s%s%s".toList
        [printf_arg.str a, printf_arg.str b, printf_arg.str c, printf_arg.str d, printf_arg.str e]
      = a ++ (b ++ (c ++ (d ++ e))) := by
  simp [sprintf]

theorem sprintf_loose_message (word : List Char) :
    sprintf "You lost! The word was %s.".toList [printf_arg.str word]
      = "You lost! The word was ".toList ++ (word ++ ".".toList) := by
  simp [sprintf]

theorem loose_message_untranslated (word : List Char) :
    loose_message (gettext "You lost! The word was %s.".toList) word
      = "You lost! The word was ".toList ++ (word ++ ".".toList) := by
  simp only [loose_message, gettext, sprintf_loose_message, loose_message_length, strlen]
  apply List.take_of_length_le
  simp
  omega

theorem text_with_foreground_color_length_eq (text color : List Char) :
    text_with_foreground_color_length text color
      = to_char ((22 + color.length + text.length : Nat) : Int) := by
  simp only [text_with_foreground_color_length, strlen]
  congr 2
  simp
  omega

theorem text_with_foreground_color_markup_eq (text color : List Char) :
    text_with_foreground_color_markup text color
      = "<span color='".toList ++ (color ++ ("'>".toList ++ (text ++ "</span>".toList))) := by
  simp only [text_with_foreground_color_markup, sprintf_five_strings]

theorem text_with_foreground_color_markup_length (text color : List Char) :
    strlen (text_with_foreground_color_markup text color)
      = 13 + strlen color + 2 + strlen text + 7 := by
  simp only [text_with_foreground_color_markup, sprintf_five_strings, strlen,
    List.length_append]
  have h1 : "<span color='".toList.length = 13 := rfl
  have h2 : "'>".toList.length = 2 := rfl
  have h3 : "</span>".toList.length = 7 := rfl
  omega

/-- The three outcomes of `text_with_foreground_color`, by the size handed to
`malloc`. -/
theorem text_with_foreground_color_eq (text color : List Char) :
    text_with_foreground_color text color
      = if malloc_fails (text_with_foreground_color_size text color) then some none
        else if text_with_foreground_color_size text color
            < strlen (text_with_foreground_color_markup text color) + 1 then none
        else some (some (text_with_foreground_color_markup text color)) := rfl

/-- The markup is returned while its length fits a signed char. -/
theorem text_with_foreground_color_fits (text color : List Char)
    (h : 22 + color.length + text.length ≤ 127) :
    text_with_foreground_color text color
      = some (some
          ("<span color='".toList ++ (color ++ ("'>".toList ++ (text ++ "</span>".toList))))) := by
  have hlen := text_with_foreground_color_markup_length text color
  simp only [strlen] at hlen
  have hsize : text_with_foreground_color_size text color = 22 + color.length + text.length + 1 := by
    simp only [text_with_foreground_color_size, text_with_foreground_color_length_eq, to_size_t,
      to_char]
    omega
  have hm : malloc_fails (text_with_foreground_color_size text color) = false := by
    rw [hsize]
    simp only [malloc_fails, PTRDIFF_MAX, decide_eq_false_iff_not]
    omega
  have hroom : ¬ text_with_foreground_color_size text color
      < strlen (text_with_foreground_color_markup text color) + 1 := by
    rw [hsize]
    simp only [strlen, hlen]
    omega
  rw [text_with_foreground_color_eq, hm, if_neg (by simp), if_neg hroom,
    text_with_foreground_color_markup_eq]

/-- From length 128 to length 254 the `char` is negative and below -1, the
request is above `PTRDIFF_MAX`, and the result is `NULL`. -/
theorem text_with_foreground_color_null (text color : List Char)
    (h1 : 128 ≤ 22 + color.length + text.length)
    (h2 : 22 + color.length + text.length ≤ 254) :
    text_with_foreground_color text color = some none := by
  have hm : malloc_fails (text_with_foreground_color_size text color) = true := by
    simp only [text_with_foreground_color_size, text_with_foreground_color_length_eq,
      malloc_fails, to_size_t, to_char, PTRDIFF_MAX, decide_eq_true_eq]
    omega
  rw [text_with_foreground_color_eq, hm, if_pos rfl]

/-- From length 256 to length 383 the `char` is between 0 and 127: `malloc`
gives a buffer of 1 to 128 bytes and `sprintf` writes past it. -/
theorem text_with_foreground_color_overflow (text color : List Char)
    (h1 : 256 ≤ 22 + color.length + text.length)
    (h2 : 22 + color.length + text.length ≤ 383) :
    text_with_foreground_color text color = none := by
  have hlen := text_with_foreground_color_markup_length text color
  simp only [strlen] at hlen
  have hsize : text_with_foreground_color_size text color
      = 22 + color.length + text.length - 256 + 1 := by
    simp only [text_with_foreground_color_size, text_with_foreground_color_length_eq, to_size_t,
      to_char]
    omega
  have hm : malloc_fails (text_with_foreground_color_size text color) = false := by
    rw [hsize]
    simp only [malloc_fails, PTRDIFF_MAX, decide_eq_false_iff_not]
    omega
  have hroom : text_with_foreground_color_size text color
      < strlen (text_with_foreground_color_markup text color) + 1 := by
    rw [hsize]
    simp only [strlen, hlen]
    omega
  rw [text_with_foreground_color_eq, hm, if_neg (by simp), if_pos hroom]

/-- Up to length 254 `text_with_foreground_color` has a result, the markup or
`NULL`. -/
theorem text_with_foreground_color_defined (text color : List Char)
    (h : 22 + color.length + text.length ≤ 254) :
    ∃ result, text_with_foreground_color text color = some result := by
  by_cases hfit : 22 + color.length + text.length ≤ 127
  · exact ⟨_, text_with_foreground_color_fits text color hfit⟩
  · exact ⟨_, text_with_foreground_color_null text color (by omega) h⟩

/-- The function `on_game_won` always has a result: its markup has 35
characters. -/
theorem on_game_won_eq (window : WordleAppWindow) :
    on_game_won window
      = some { window with
          guess_word_sensitive := false, reset_visible := true, submit_visible := false,
          end_state_markup := some "<span color='green'>You won!</span>".toList,
          end_state_visible := true } := by
  have hfit := text_with_foreground_color_fits (gettext "You won!".toList) "green".toList
    (by decide)
  simp only [on_game_won, hfit, freeze_guess_entry, show_reset_button_hide_submit_button]
  rfl

/-- For a target word of at most 205 characters `on_game_lost` has a result:
the entry frozen, the buttons swapped, the end-state label visible with the
markup, or the `NULL`, that `text_with_foreground_color` returned. -/
theorem on_game_lost_defined (window : WordleAppWindow) (game : Game)
    (hgame : window.game = some game)
    (hlen : strlen (wc_game_get_word_to_guess game) ≤ 205) :
    ∃ loose_text, on_game_lost window
      = some { window with
          guess_word_sensitive := false, reset_visible := true, submit_visible := false,
          end_state_markup := loose_text, end_state_visible := true } := by
  simp only [strlen] at hlen
  obtain ⟨loose_text, htext⟩ := text_with_foreground_color_defined
    ("You lost! The word was ".toList ++ (wc_game_get_word_to_guess game ++ ".".toList))
    "red".toList (by simp; omega)
  refine ⟨loose_text, ?_⟩
  simp only [on_game_lost, freeze_guess_entry, show_reset_button_hide_submit_button, hgame,
    loose_message_untranslated, htext]

/-! ## Theorems: submitting a guess -/

theorem get_current_guessed_word_loop_eq_map (text : List Char) :
    get_current_guessed_word_loop text = text.map toupper := by
  induction text with
  | nil => rfl
  | cons c rest ih => simp [get_current_guessed_word_loop, ih]

theorem get_current_guessed_word_length (window : WordleAppWindow) :
    (get_current_guessed_word window).length = window.guess_word_text.length := by
  simp [get_current_guessed_word, get_current_guessed_word_loop_eq_map]

theorem word_has_been_guessed_before_loop_iff (guess_word : List Char) (nodes : List GuessHint) :
    word_has_been_guessed_before_loop guess_word nodes = true
      ↔ ∃ h ∈ nodes, wc_guess_hint_get_guessed h = guess_word := by
  induction nodes with
  | nil => simp [word_has_been_guessed_before_loop]
  | cons n rest ih =>
    by_cases hn : guess_word = wc_guess_hint_get_guessed n
    · simp [word_has_been_guessed_before_loop, hn]
    · have hn2 : ¬ wc_guess_hint_get_guessed n = guess_word := fun e => hn e.symm
      simp [word_has_been_guessed_before_loop, hn, hn2, ih]

/-- C2. For every game and every entered text whose length differs from the
length of the target word, `try_to_guess_word` submits nothing: the length
check alone makes `can_guess_word` return 0, whatever the history holds, and
the window is left as it was: the game has not been handed a guess, the entry
has not been cleared and the grid has no new row. -/
theorem wrong_length_guess_not_submitted (window : WordleAppWindow) (game : Game)
    (hgame : window.game = some game)
    (hlen : strlen window.guess_word_text ≠ strlen (wc_game_get_word_to_guess game)) :
    word_has_correct_length window (get_current_guessed_word window) = some false
    ∧ can_guess_word window (get_current_guessed_word window) = some false
    ∧ try_to_guess_word window = some window := by
  have h1 : word_has_correct_length window (get_current_guessed_word window) = some false := by
    simp only [word_has_correct_length, hgame, strlen, get_current_guessed_word_length]
    simp only [strlen] at hlen
    simp [hlen]
  have h2 : can_guess_word window (get_current_guessed_word window) = some false := by
    simp [can_guess_word, h1]
  exact ⟨h1, h2, by simp [try_to_guess_word, h2]⟩

/-- Witness for C2: the four-letter text `sped` against the target ERASE. -/
theorem wrong_length_guess_not_submitted_witness :
    word_has_correct_length { example_window with guess_word_text := "sped".toList }
        (get_current_guessed_word { example_window with guess_word_text := "sped".toList })
      = some false
    ∧ can_guess_word { example_window with guess_word_text := "sped".toList }
        (get_current_guessed_word { example_window with guess_word_text := "sped".toList })
      = some false
    ∧ try_to_guess_word { example_window with guess_word_text := "sped".toList }
      = some { example_window with guess_word_text := "sped".toList } :=
  wrong_length_guess_not_submitted { example_window with guess_word_text := "sped".toList }
    example_game (by decide) (by decide)

theorem wc_game_guess_accepted (game : Game) (guessed : List Char)
    (hlen : guessed.length = game.word_to_guess.length)
    (hnew : ¬ ∃ h ∈ game.guess_hints, h.guessed = guessed) :
    (wc_game_guess game guessed).game
      = { game with
          guess_hints := game.guess_hints ++ [compute_guess_hint game.word_to_guess guessed] } := by
  have hany : (game.guess_hints.any fun h => decide (h.guessed = guessed)) = false := by
    rw [Bool.eq_false_iff]
    intro hc
    rw [List.any_eq_true] at hc
    obtain ⟨h, hmem, hh⟩ := hc
    exact hnew ⟨h, hmem, by simpa using hh⟩
  simp [wc_game_guess, hlen, hany]

theorem wc_game_guess_accepted_ok (game : Game) (guessed : List Char)
    (hlen : guessed.length = game.word_to_guess.length)
    (hnew : ¬ ∃ h ∈ game.guess_hints, h.guessed = guessed) :
    (wc_game_guess game guessed).ok = true := by
  have hany : (game.guess_hints.any fun h => decide (h.guessed = guessed)) = false := by
    rw [Bool.eq_false_iff]
    intro hc
    rw [List.any_eq_true] at hc
    obtain ⟨h, hmem, hh⟩ := hc
    exact hnew ⟨h, hmem, by simpa using hh⟩
  simp [wc_game_guess, hlen, hany]

/-- The function `make_guess` once the game handle and the current guess hint
are known not to be `NULL`: the row is added, then the state decides. -/
theorem make_guess_eq (window : WordleAppWindow) (game : Game) (guessed : List Char)
    (hint : GuessHint) (hgame : window.game = some game)
    (hcur : wc_game_get_current_guess_hint (wc_game_guess game guessed).game = some hint) :
    make_guess window guessed
      = match (wc_game_guess game guessed).new_state with
        | WC_GAME_STATE_PENDING =>
            some { window with
              game := some (wc_game_guess game guessed).game,
              hints := wordle_hints_add_guess_row window.hints hint }
        | WC_GAME_STATE_LOST =>
            on_game_lost { window with
              game := some (wc_game_guess game guessed).game,
              hints := wordle_hints_add_guess_row window.hints hint }
        | WC_GAME_STATE_WON =>
            on_game_won { window with
              game := some (wc_game_guess game guessed).game,
              hints := wordle_hints_add_guess_row window.hints hint } := by
  simp only [make_guess, hgame, hcur]

/-- A window returned by `on_game_lost` has the game and the hints of the
window it was given. -/
theorem on_game_lost_game_hints (window window' : WordleAppWindow)
    (h : on_game_lost window = some window') :
    window'.game = window.game ∧ window'.hints = window.hints
      ∧ window'.guess_word_text = window.guess_word_text := by
  unfold on_game_lost at h
  cases hg : window.game with
  | none => simp [freeze_guess_entry, show_reset_button_hide_submit_button, hg] at h
  | some game =>
    simp only [freeze_guess_entry, show_reset_button_hide_submit_button, hg] at h
    split at h
    · exact absurd h (by simp)
    · simp only [Option.some.injEq] at h
      subst h
      exact ⟨rfl, rfl, rfl⟩

/-- Whenever `make_guess` returns a window, its game is the game after
`wc_game_guess`. -/
theorem make_guess_game (window window' : WordleAppWindow) (game : Game) (guessed : List Char)
    (hgame : window.game = some game) (h : make_guess window guessed = some window') :
    window'.game = some (wc_game_guess game guessed).game := by
  cases hcur : wc_game_get_current_guess_hint (wc_game_guess game guessed).game with
  | none => simp [make_guess, hgame, hcur] at h
  | some hint =>
    rw [make_guess_eq window game guessed hint hgame hcur] at h
    cases hstate : (wc_game_guess game guessed).new_state with
    | WC_GAME_STATE_PENDING =>
      simp only [hstate, Option.some.injEq] at h
      subst h
      rfl
    | WC_GAME_STATE_WON =>
      simp only [hstate, on_game_won_eq, Option.some.injEq] at h
      subst h
      rfl
    | WC_GAME_STATE_LOST =>
      simp only [hstate] at h
      exact (on_game_lost_game_hints _ _ h).1

/-- What `make_guess` does to the game, the grid and the entry when the engine
accepts the guess and, if the game is then lost, the target word has at most
205 characters: it returns a window, whose game has the new guess hint as its
last one and whose grid has the row of that hint. -/
theorem make_guess_accepted (window : WordleAppWindow) (game : Game) (guessed : List Char)
    (hgame : window.game = some game)
    (hlen : guessed.length = game.word_to_guess.length)
    (hnew : ¬ ∃ h ∈ game.guess_hints, h.guessed = guessed)
    (hroom : (wc_game_guess game guessed).new_state = WC_GAME_STATE_LOST →
      strlen (wc_game_get_word_to_guess game) ≤ 205) :
    ∃ window', make_guess window guessed = some window'
      ∧ window'.game = some { game with
          guess_hints := game.guess_hints ++ [compute_guess_hint game.word_to_guess guessed] }
      ∧ window'.hints = wordle_hints_add_guess_row window.hints
          (compute_guess_hint game.word_to_guess guessed)
      ∧ window'.guess_word_text = window.guess_word_text := by
  have hg := wc_game_guess_accepted game guessed hlen hnew
  have hcur : wc_game_get_current_guess_hint (wc_game_guess game guessed).game
      = some (compute_guess_hint game.word_to_guess guessed) := by
    rw [hg]
    simp [wc_game_get_current_guess_hint, List.getLast?_concat]
  rw [make_guess_eq window game guessed _ hgame hcur]
  cases hstate : (wc_game_guess game guessed).new_state with
  | WC_GAME_STATE_PENDING => exact ⟨_, rfl, by simp [hg], rfl, rfl⟩
  | WC_GAME_STATE_WON =>
    simp only [on_game_won_eq]
    exact ⟨_, rfl, by simp [hg], rfl, rfl⟩
  | WC_GAME_STATE_LOST =>
    have hword : strlen (wc_game_get_word_to_guess (wc_game_guess game guessed).game) ≤ 205 := by
      rw [hg]
      exact hroom hstate
    obtain ⟨loose_text, hlost⟩ := on_game_lost_defined
      { window with
        game := some (wc_game_guess game guessed).game,
        hints := wordle_hints_add_guess_row window.hints
          (compute_guess_hint game.word_to_guess guessed) }
      (wc_game_guess game guessed).game rfl hword
    simp only [hlost]
    exact ⟨_, rfl, by simp [hg], rfl, rfl⟩

/-- C3. `word_has_been_guessed_before` returns 1 exactly when the guess word
equals the guessed word of some guess hint of the history, so it returns 0 on
an empty history; and a guess of the right length is submitted by
`try_to_guess_word` exactly when it returns 0: then `try_to_guess_word` is
`make_guess` on the cleared entry, `wc_game_guess` accepts the guess and
records it, and the window returned has the game with the guess recorded;
otherwise the window is left as it was.  (A window is returned unless the guess
loses a game on a target word of more than 205 characters, where
`on_game_lost` writes past the buffer of its markup.) -/
theorem guessed_before_iff_in_history (window : WordleAppWindow) (game : Game)
    (guess_word : List Char) (hgame : window.game = some game) :
    (word_has_been_guessed_before window guess_word = some true
      ↔ ∃ h ∈ wc_game_get_guess_hints game, wc_guess_hint_get_guessed h = guess_word)
    ∧ (word_has_been_guessed_before window guess_word = some false
      ↔ ¬ ∃ h ∈ wc_game_get_guess_hints game, wc_guess_hint_get_guessed h = guess_word)
    ∧ (wc_game_get_guess_hints game = [] →
        word_has_been_guessed_before window guess_word = some false)
    ∧ (strlen window.guess_word_text = strlen (wc_game_get_word_to_guess game) →
        (word_has_been_guessed_before window (get_current_guessed_word window) = some false →
          try_to_guess_word window
              = make_guess (clear_guess_entry window) (get_current_guessed_word window)
          ∧ (wc_game_guess game (get_current_guessed_word window)).ok = true
          ∧ (wc_game_guess game (get_current_guessed_word window)).game
              = { game with
                  guess_hints := game.guess_hints ++
                    [compute_guess_hint game.word_to_guess (get_current_guessed_word window)] }
          ∧ (∀ window', try_to_guess_word window = some window' →
              window'.game = some { game with
                  guess_hints := game.guess_hints ++
                    [compute_guess_hint game.word_to_guess (get_current_guessed_word window)] })
          ∧ (((wc_game_guess game (get_current_guessed_word window)).new_state
                  = WC_GAME_STATE_LOST → strlen (wc_game_get_word_to_guess game) ≤ 205) →
              ∃ window', try_to_guess_word window = some window'
                ∧ window'.game = some { game with
                    guess_hints := game.guess_hints ++
                      [compute_guess_hint game.word_to_guess
                        (get_current_guessed_word window)] }))
        ∧ (word_has_been_guessed_before window (get_current_guessed_word window) = some true →
          try_to_guess_word window = some window)) := by
  have hiff := word_has_been_guessed_before_loop_iff guess_word (wc_game_get_guess_hints game)
  have hval : word_has_been_guessed_before window guess_word
      = some (word_has_been_guessed_before_loop guess_word (wc_game_get_guess_hints game)) := by
    simp [word_has_been_guessed_before, hgame]
  refine ⟨?_, ?_, ?_, ?_⟩
  · rw [hval, ← hiff]; simp
  · rw [hval, ← hiff]; simp
  · intro hempty
    rw [hval, hempty]
    rfl
  · intro hlen
    have hlen' : strlen (get_current_guessed_word window)
        = strlen (wc_game_get_word_to_guess game) := by
      simp only [strlen, get_current_guessed_word_length]
      exact hlen
    have hcorrect : word_has_correct_length window (get_current_guessed_word window)
        = some true := by
      simp [word_has_correct_length, hgame, hlen']
    constructor
    · intro hfalse
      have hcan : can_guess_word window (get_current_guessed_word window) = some true := by
        simp [can_guess_word, hcorrect, hfalse]
      have htry : try_to_guess_word window
          = make_guess (clear_guess_entry window) (get_current_guessed_word window) := by
        simp [try_to_guess_word, hcan]
      have hnew : ¬ ∃ h ∈ game.guess_hints, h.guessed = get_current_guessed_word window := by
        have h2 := word_has_been_guessed_before_loop_iff (get_current_guessed_word window)
          (wc_game_get_guess_hints game)
        simp only [word_has_been_guessed_before, hgame, Option.some.injEq] at hfalse
        intro hex
        rw [h2.mpr hex] at hfalse
        exact Bool.noConfusion hfalse
      have haccept := wc_game_guess_accepted game (get_current_guessed_word window) hlen' hnew
      refine ⟨htry, wc_game_guess_accepted_ok game _ hlen' hnew, haccept, ?_, ?_⟩
      · intro window' hret
        rw [htry] at hret
        rw [make_guess_game (clear_guess_entry window) window' game _ hgame hret, haccept]
      · intro hroom
        obtain ⟨window', hmk, hgame', _, _⟩ :=
          make_guess_accepted (clear_guess_entry window) game (get_current_guessed_word window)
            hgame hlen' hnew hroom
        exact ⟨window', by rw [htry, hmk], hgame'⟩
    · intro htrue
      have hcan : can_guess_word window (get_current_guessed_word window) = some false := by
        simp [can_guess_word, hcorrect, htrue]
      simp [try_to_guess_word, hcan]

/-- Witness for C3: the text `speed` against the target ERASE and an empty
history. -/
theorem guessed_before_iff_in_history_witness :
    example_window.game = some example_game
    ∧ (word_has_been_guessed_before example_window "SPEED".toList = some false
      ↔ ¬ ∃ h ∈ wc_game_get_guess_hints example_game,
          wc_guess_hint_get_guessed h = "SPEED".toList) :=
  ⟨by decide,
   (guessed_before_iff_in_history example_window example_game "SPEED".toList (by decide)).2.1⟩

/-- C4. `get_letter_hint_color` maps Correct to green, PlacementIncorrect to
yellow and Incorrect to gray: three pairwise different, non-empty colors. -/
theorem letter_hint_colors :
    get_letter_hint_color WC_LETTER_HINT_CORRECT = "green".toList
    ∧ get_letter_hint_color WC_LETTER_HINT_PLACEMENT_INCORRECT = "yellow".toList
    ∧ get_letter_hint_color WC_LETTER_HINT_INCORRECT = "gray".toList
    ∧ (∀ a b : wc_letter_hint, a ≠ b → get_letter_hint_color a ≠ get_letter_hint_color b)
    ∧ (∀ a : wc_letter_hint, get_letter_hint_color a ≠ []) := by
  refine ⟨rfl, rfl, rfl, ?_, ?_⟩
  · intro a b hab
    cases a <;> cases b <;> first | exact absurd rfl hab | decide
  · intro a
    cases a <;> decide

/-! ## Theorems: case normalization -/

theorem toNat_ofNat_upper (n : Nat) (h1 : 65 ≤ n) (h2 : n ≤ 90) : (Char.ofNat n).toNat = n := by
  interval_cases n <;> rfl

theorem toupper_toupper (c : Char) : toupper (toupper c) = toupper c := by
  by_cases h : 97 ≤ c.toNat ∧ c.toNat ≤ 122
  · have hn := toNat_ofNat_upper (c.toNat - 32) (by omega) (by omega)
    have hout : ¬ (97 ≤ (Char.ofNat (c.toNat - 32)).toNat
        ∧ (Char.ofNat (c.toNat - 32)).toNat ≤ 122) := by
      rw [hn]; omega
    rw [show toupper c = Char.ofNat (c.toNat - 32) from if_pos h]
    exact if_neg hout
  · rw [show toupper c = c from if_neg h, show toupper c = c from if_neg h]

/-- C7. Case normalization of a guess is done by the caller:
`get_current_guessed_word` returns a string of the length of the entry text
whose character at each position is `toupper` of the character of the text
there, normalizing a normalized word changes nothing, and this word is the one
`try_to_guess_word` hands to the length check, to the already-played check and,
when both pass, to `make_guess` and so to `wc_game_guess`, which accepts and
records it; the window returned has the game after that call.  (A window is
returned unless the guess loses a game on a target word of more than 205
characters, where `on_game_lost` writes past the buffer of its markup.) -/
theorem guess_normalized_by_caller (window : WordleAppWindow) (game : Game)
    (hgame : window.game = some game) :
    strlen (get_current_guessed_word window) = strlen window.guess_word_text
    ∧ (∀ i : Nat,
        (get_current_guessed_word window)[i]? = window.guess_word_text[i]?.map toupper)
    ∧ get_current_guessed_word
        { window with guess_word_text := get_current_guessed_word window }
        = get_current_guessed_word window
    ∧ can_guess_word window (get_current_guessed_word window)
        = some (decide (strlen (get_current_guessed_word window)
                  = strlen (wc_game_get_word_to_guess game))
                && !word_has_been_guessed_before_loop (get_current_guessed_word window)
                      (wc_game_get_guess_hints game))
    ∧ (can_guess_word window (get_current_guessed_word window) = some false →
        try_to_guess_word window = some window)
    ∧ (can_guess_word window (get_current_guessed_word window) = some true →
        try_to_guess_word window
            = make_guess (clear_guess_entry window) (get_current_guessed_word window)
        ∧ (wc_game_guess game (get_current_guessed_word window)).ok = true
        ∧ (wc_game_get_current_guess_hint
              (wc_game_guess game (get_current_guessed_word window)).game).map
            wc_guess_hint_get_guessed = some (get_current_guessed_word window)
        ∧ (∀ window', try_to_guess_word window = some window' →
            window'.game = some (wc_game_guess game (get_current_guessed_word window)).game)
        ∧ (((wc_game_guess game (get_current_guessed_word window)).new_state
                = WC_GAME_STATE_LOST → strlen (wc_game_get_word_to_guess game) ≤ 205) →
            ∃ window', try_to_guess_word window = some window'
              ∧ window'.game
                  = some (wc_game_guess game (get_current_guessed_word window)).game)) := by
  have hcan : can_guess_word window (get_current_guessed_word window)
        = some (decide (strlen (get_current_guessed_word window)
                  = strlen (wc_game_get_word_to_guess game))
                && !word_has_been_guessed_before_loop (get_current_guessed_word window)
                      (wc_game_get_guess_hints game)) := by
    simp only [can_guess_word, word_has_correct_length, word_has_been_guessed_before, hgame]
    by_cases hl : strlen (get_current_guessed_word window)
        = strlen (wc_game_get_word_to_guess game) <;> simp [hl]
  refine ⟨?_, ?_, ?_, hcan, ?_, ?_⟩
  · simp [strlen, get_current_guessed_word_length]
  · intro i
    simp [get_current_guessed_word, get_current_guessed_word_loop_eq_map]
  · simp [get_current_guessed_word, get_current_guessed_word_loop_eq_map, toupper_toupper]
  · intro hfalse
    simp [try_to_guess_word, hfalse]
  · intro htrue
    rw [hcan] at htrue
    simp only [Option.some.injEq, Bool.and_eq_true, decide_eq_true_eq, Bool.not_eq_true',
      strlen, wc_game_get_word_to_guess, wc_game_get_guess_hints] at htrue
    obtain ⟨hlen, hbefore⟩ := htrue
    have hnew : ¬ ∃ h ∈ game.guess_hints, h.guessed = get_current_guessed_word window := by
      intro hex
      have := (word_has_been_guessed_before_loop_iff (get_current_guessed_word window)
        game.guess_hints).mpr hex
      rw [hbefore] at this
      exact Bool.noConfusion this
    have haccept := wc_game_guess_accepted game (get_current_guessed_word window) hlen hnew
    have hcan' : can_guess_word window (get_current_guessed_word window) = some true := by
      rw [hcan]
      simp [strlen, wc_game_get_word_to_guess, wc_game_get_guess_hints, hlen, hbefore]
    have htry : try_to_guess_word window
        = make_guess (clear_guess_entry window) (get_current_guessed_word window) := by
      simp [try_to_guess_word, hcan']
    refine ⟨htry, wc_game_guess_accepted_ok game _ hlen hnew, ?_, ?_, ?_⟩
    · rw [haccept]
      simp [wc_game_get_current_guess_hint, List.getLast?_concat, wc_guess_hint_get_guessed,
        compute_guess_hint]
    · intro window' hret
      rw [htry] at hret
      exact make_guess_game (clear_guess_entry window) window' game _ hgame hret
    · intro hroom
      obtain ⟨window', hmk, hgame', _, _⟩ :=
        make_guess_accepted (clear_guess_entry window) game (get_current_guessed_word window)
          hgame hlen hnew hroom
      exact ⟨window', by rw [htry, hmk], by rw [hgame', haccept]⟩

/-- Witness for C7: the text `speed` is normalized to SPEED. -/
theorem guess_normalized_by_caller_witness :
    example_window.game = some example_game
    ∧ get_current_guessed_word example_window = "SPEED".toList
    ∧ strlen (get_current_guessed_word example_window) = strlen example_window.guess_word_text :=
  ⟨by decide, by decide,
   (guess_normalized_by_caller example_window example_game (by decide)).1⟩

/-! ## Theorems: the end-state label -/

/-- For a target word of at most 78 characters `on_game_lost` sets the markup
of the lost message on the end-state label. -/
theorem on_game_lost_markup_short_word (window : WordleAppWindow) (game : Game)
    (hgame : window.game = some game)
    (hshort : strlen (wc_game_get_word_to_guess game) ≤ 78) :
    (on_game_lost window).map (fun w => w.end_state_markup)
      = some (some ("<span color='red'>You lost! The word was ".toList
              ++ (wc_game_get_word_to_guess game ++ ".</span>".toList))) := by
  simp only [strlen] at hshort
  have hfit := text_with_foreground_color_fits
    ("You lost! The word was ".toList ++ (wc_game_get_word_to_guess game ++ ".".toList))
    "red".toList (by simp; omega)
  simp only [on_game_lost, freeze_guess_entry, show_reset_button_hide_submit_button, hgame,
    loose_message_untranslated, hfit]
  simp

/-- C5, at the target word of 79 letters A: `on_game_lost` returns a window
whose end-state label was handed the `NULL` markup, not the markup of the lost
message with the word in it. -/
theorem on_game_lost_long_word_no_markup :
    (on_game_lost long_word_window).map (fun w => w.end_state_markup) = some none
    ∧ (on_game_lost long_word_window).map (fun w => w.end_state_markup)
        ≠ some (some ("<span color='red'>You lost! The word was ".toList
              ++ (long_word ++ ".</span>".toList))) := by
  have hgame : long_word_window.game
      = some { word_to_guess := long_word, attempts_count_limit := none, guess_hints := [] } := by
    decide
  have hnull := text_with_foreground_color_null
    ("You lost! The word was ".toList ++ (long_word ++ ".".toList)) "red".toList
    (by simp [long_word]) (by simp [long_word])
  have h : (on_game_lost long_word_window).map (fun w => w.end_state_markup) = some none := by
    simp only [on_game_lost, freeze_guess_entry, show_reset_button_hide_submit_button, hgame,
      wc_game_get_word_to_guess, loose_message_untranslated, hnull]
    rfl
  exact ⟨h, by rw [h]; simp⟩

/-! ## Theorems: terminal states -/

/-- The state `wc_game_guess` writes through its pointer is the state of the
game after the call. -/
theorem wc_game_guess_new_state (game : Game) (guessed : List Char) :
    (wc_game_guess game guessed).new_state
      = wc_game_get_state (wc_game_guess game guessed).game := by
  unfold wc_game_guess
  split
  · rfl
  · split <;> rfl

/-- A guess that the engine accepts, that is not the target and that uses up
the last attempt gives the state Lost. -/
theorem wc_game_guess_lost_on_last_attempt (game : Game) (guessed : List Char)
    (hlen : guessed.length = game.word_to_guess.length)
    (hnew : ¬ ∃ h ∈ game.guess_hints, h.guessed = guessed)
    (hne : guessed ≠ game.word_to_guess)
    (hlimit : game.attempts_count_limit = some (game.guess_hints.length + 1)) :
    (wc_game_guess game guessed).new_state = WC_GAME_STATE_LOST := by
  rw [wc_game_guess_new_state, wc_game_guess_accepted game guessed hlen hnew]
  simp [wc_game_get_state, compute_guess_hint, hne, hlimit]

/-- For a target word of 207 to 334 characters `on_game_lost` has no result:
the markup has 256 to 383 characters, the `char length` is 0 to 127, and
`sprintf` writes the markup into a buffer of 1 to 128 bytes. -/
theorem on_game_lost_overflow (window : WordleAppWindow) (game : Game)
    (hgame : window.game = some game)
    (h1 : 207 ≤ strlen (wc_game_get_word_to_guess game))
    (h2 : strlen (wc_game_get_word_to_guess game) ≤ 334) :
    on_game_lost window = none := by
  simp only [strlen] at h1 h2
  have hover := text_with_foreground_color_overflow
    ("You lost! The word was ".toList ++ (wc_game_get_word_to_guess game ++ ".".toList))
    "red".toList (by simp; omega) (by simp; omega)
  simp only [on_game_lost, freeze_guess_entry, show_reset_button_hide_submit_button, hgame,
    loose_message_untranslated, hover]

/-- What holds of the handlers where they return.  Whenever the game has a
current guess hint after `wc_game_guess` and, if the state is Lost, the target
word has at most 205 characters, `make_guess` returns a window; when the state
it received is Won or Lost the entry is insensitive, the submit button hidden,
the reset button and the end-state label visible; when it is Pending none of
the four has changed.  In the window returned, a game that is not pending has
the entry insensitive and submit hidden: no guess can be entered.
`on_reset_clicked` leaves the entry sensitive, submit visible, reset and the
end-state label hidden.  "The entry is sensitive exactly when submit is
visible and reset is hidden" holds after a terminal `make_guess` and after
`on_reset_clicked`, and a pending `make_guess` keeps it. -/
theorem terminal_state_freezes_entry (window : WordleAppWindow) (game : Game)
    (guessed : List Char) (draw : Nat)
    (hgame : window.game = some game)
    (hhint : (wc_game_guess game guessed).game.guess_hints ≠ [])
    (hroom : (wc_game_guess game guessed).new_state = WC_GAME_STATE_LOST →
      strlen (wc_game_get_word_to_guess game) ≤ 205) :
    ∃ window', make_guess window guessed = some window'
      ∧ ((wc_game_guess game guessed).new_state = WC_GAME_STATE_WON
          ∨ (wc_game_guess game guessed).new_state = WC_GAME_STATE_LOST →
          window'.guess_word_sensitive = false ∧ window'.submit_visible = false
          ∧ window'.reset_visible = true ∧ window'.end_state_visible = true)
      ∧ ((wc_game_guess game guessed).new_state = WC_GAME_STATE_PENDING →
          window'.guess_word_sensitive = window.guess_word_sensitive
          ∧ window'.submit_visible = window.submit_visible
          ∧ window'.reset_visible = window.reset_visible
          ∧ window'.end_state_visible = window.end_state_visible)
      ∧ (∀ game', window'.game = some game' →
          wc_game_get_state game' ≠ WC_GAME_STATE_PENDING →
          window'.guess_word_sensitive = false ∧ window'.submit_visible = false)
      ∧ ((on_reset_clicked window draw).guess_word_sensitive = true
          ∧ (on_reset_clicked window draw).submit_visible = true
          ∧ (on_reset_clicked window draw).reset_visible = false
          ∧ (on_reset_clicked window draw).end_state_visible = false)
      ∧ ((wc_game_guess game guessed).new_state ≠ WC_GAME_STATE_PENDING →
          (window'.guess_word_sensitive = true
            ↔ window'.submit_visible = true ∧ window'.reset_visible = false))
      ∧ ((window.guess_word_sensitive = true
            ↔ window.submit_visible = true ∧ window.reset_visible = false) →
          (window'.guess_word_sensitive = true
            ↔ window'.submit_visible = true ∧ window'.reset_visible = false))
      ∧ ((on_reset_clicked window draw).guess_word_sensitive = true
            ↔ (on_reset_clicked window draw).submit_visible = true
              ∧ (on_reset_clicked window draw).reset_visible = false) := by
  obtain ⟨hint, hlast⟩ : ∃ hint, wc_game_get_current_guess_hint (wc_game_guess game guessed).game
      = some hint := ⟨_, List.getLast?_eq_getLast _ hhint⟩
  have hreset : (on_reset_clicked window draw).guess_word_sensitive = true
      ∧ (on_reset_clicked window draw).submit_visible = true
      ∧ (on_reset_clicked window draw).reset_visible = false
      ∧ (on_reset_clicked window draw).end_state_visible = false := by
    simp [on_reset_clicked, unfreeze_guess_entry, show_submit_button_hide_reset_button]
  have hstate_eq := wc_game_guess_new_state game guessed
  rw [make_guess_eq window game guessed hint hgame hlast]
  cases hstate : (wc_game_guess game guessed).new_state with
  | WC_GAME_STATE_PENDING =>
    refine ⟨_, rfl, by simp, by simp, ?_, hreset, by simp, fun h => h, by simp [hreset]⟩
    intro game' hgame' hterminal
    simp only [Option.some.injEq] at hgame'
    rw [← hgame', ← hstate_eq, hstate] at hterminal
    exact absurd rfl hterminal
  | WC_GAME_STATE_WON =>
    simp only [on_game_won_eq]
    exact ⟨_, rfl, by simp, by simp, fun _ _ _ => ⟨rfl, rfl⟩, hreset, by simp, by simp,
      by simp [hreset]⟩
  | WC_GAME_STATE_LOST =>
    have hword : strlen (wc_game_get_word_to_guess (wc_game_guess game guessed).game) ≤ 205 := by
      have hsame : (wc_game_guess game guessed).game.word_to_guess = game.word_to_guess := by
        unfold wc_game_guess
        split
        · rfl
        · split <;> rfl
      simp only [wc_game_get_word_to_guess, hsame]
      exact hroom hstate
    obtain ⟨loose_text, hlost⟩ := on_game_lost_defined
      { window with
        game := some (wc_game_guess game guessed).game,
        hints := wordle_hints_add_guess_row window.hints hint }
      (wc_game_guess game guessed).game rfl hword
    simp only [hlost]
    exact ⟨_, rfl, by simp, by simp, fun _ _ _ => ⟨rfl, rfl⟩, hreset, by simp, by simp,
      by simp [hreset]⟩

/-- The hypotheses of `terminal_state_freezes_entry` hold when the one allowed
attempt on ERASE is spent on SPEED: the state received is Lost and the entry is
frozen. -/
theorem terminal_state_freezes_entry_witness :
    limited_window.game = some limited_game
    ∧ (wc_game_guess limited_game "SPEED".toList).game.guess_hints ≠ []
    ∧ (wc_game_guess limited_game "SPEED".toList).new_state = WC_GAME_STATE_LOST
    ∧ ∃ window', make_guess limited_window "SPEED".toList = some window'
        ∧ window'.guess_word_sensitive = false ∧ window'.submit_visible = false
        ∧ window'.reset_visible = true ∧ window'.end_state_visible = true :=
  ⟨by decide, by decide, by decide,
   match terminal_state_freezes_entry limited_window limited_game "SPEED".toList 0
      (by decide) (by decide) (fun _ => by decide) with
   | ⟨window', hmake, hterminal, _⟩ => ⟨window', hmake, hterminal (Or.inr (by decide))⟩⟩

/-- C6, at a one-attempt game on a target word of 207 letters A and the guess
of 207 letters B: the game is not `NULL`, `wc_game_guess` records the guess and
gives the state Lost, and `make_guess` has no result: in `on_game_lost` the
markup of 256 characters is written into a buffer of 1 byte, before the
end-state label is made visible.  So no window is returned in which the entry
is frozen and the end-state label visible. -/
theorem make_guess_lost_very_long_word_no_result :
    very_long_window.game = some very_long_game
    ∧ (wc_game_guess very_long_game very_long_guess).game.guess_hints ≠ []
    ∧ (wc_game_guess very_long_game very_long_guess).new_state = WC_GAME_STATE_LOST
    ∧ text_with_foreground_color_size
          (loose_message (gettext "You lost! The word was %s.".toList) very_long_word)
          "red".toList = 1
    ∧ make_guess very_long_window very_long_guess = none
    ∧ ¬ ∃ window', make_guess very_long_window very_long_guess = some window'
          ∧ window'.guess_word_sensitive = false ∧ window'.end_state_visible = true := by
  have hwl : very_long_word.length = 207 := List.length_replicate _ _
  have hgl : very_long_guess.length = 207 := List.length_replicate _ _
  have hlen : very_long_guess.length = very_long_game.word_to_guess.length := by
    show very_long_guess.length = very_long_word.length
    rw [hwl, hgl]
  have hnew : ¬ ∃ h ∈ very_long_game.guess_hints, h.guessed = very_long_guess := by
    rintro ⟨h, hmem, _⟩
    exact absurd hmem (List.not_mem_nil h)
  have hg := wc_game_guess_accepted very_long_game very_long_guess hlen hnew
  have hne : very_long_guess ≠ very_long_game.word_to_guess := by
    have hB : very_long_guess = 'B' :: List.replicate 206 'B' := rfl
    have hA : very_long_game.word_to_guess = 'A' :: List.replicate 206 'A' := rfl
    intro h
    rw [hA, hB] at h
    injection h with h1 _
    exact absurd h1 (by decide)
  have hstate : (wc_game_guess very_long_game very_long_guess).new_state
      = WC_GAME_STATE_LOST :=
    wc_game_guess_lost_on_last_attempt very_long_game very_long_guess hlen hnew hne rfl
  have hcur : wc_game_get_current_guess_hint (wc_game_guess very_long_game very_long_guess).game
      = some (compute_guess_hint very_long_game.word_to_guess very_long_guess) := by
    rw [hg]
    exact List.getLast?_concat _
  have hword : strlen (wc_game_get_word_to_guess
      (wc_game_guess very_long_game very_long_guess).game) = 207 := by
    rw [hg]
    exact hwl
  have hlost : on_game_lost
      { very_long_window with
        game := some (wc_game_guess very_long_game very_long_guess).game,
        hints := wordle_hints_add_guess_row very_long_window.hints
          (compute_guess_hint very_long_game.word_to_guess very_long_guess) } = none :=
    on_game_lost_overflow _ (wc_game_guess very_long_game very_long_guess).game rfl
      (by rw [hword]) (by rw [hword]; decide)
  have hmake : make_guess very_long_window very_long_guess = none := by
    rw [make_guess_eq very_long_window very_long_game very_long_guess _ rfl hcur, hstate]
    exact hlost
  have htext : ("You lost! The word was ".toList ++ (very_long_word ++ ".".toList)).length
      = 231 := by
    rw [List.length_append, List.length_append, hwl]
    rfl
  have hsize : text_with_foreground_color_size
      (loose_message (gettext "You lost! The word was %s.".toList) very_long_word)
      "red".toList = 1 := by
    rw [loose_message_untranslated]
    simp only [text_with_foreground_color_size, text_with_foreground_color_length_eq]
    rw [htext]
    decide
  refine ⟨rfl, ?_, hstate, hsize, hmake, ?_⟩
  · rw [hg]
    exact List.append_ne_nil_of_right_ne_nil _ (List.cons_ne_nil _ _)
  · rintro ⟨window', h, _⟩
    rw [hmake] at h
    exact Option.noConfusion h

/-! ## Theorems: opening a file and starting a new game -/

theorem wordle_hints_clear_loop_eq_nil (grid : List GridChild) :
    wordle_hints_clear_loop grid = [] := by
  induction grid with
  | nil => rfl
  | cons c rest ih => simpa [wordle_hints_clear_loop] using ih

theorem sprintf_word_length (number : List Char) :
    sprintf (gettext "Word length: %s".toList) [printf_arg.str number]
      = "Word length: ".toList ++ number := by
  simp [sprintf, gettext]

theorem reset_game_game (window : WordleAppWindow) (draw : Nat) :
    (reset_game window draw).game
      = wc_game_new (wc_word_picker_pick_word window.word_picker draw) := by
  by_cases h : window.game = none <;> simp [reset_game, h]

theorem reset_game_word_picker (window : WordleAppWindow) (draw : Nat) :
    (reset_game window draw).word_picker = window.word_picker := by
  by_cases h : window.game = none <;> simp [reset_game, h]

theorem reset_game_hints (window : WordleAppWindow) (draw : Nat) :
    (reset_game window draw).hints
      = wordle_hints_reset window.hints
          (strlen (wc_word_picker_pick_word window.word_picker draw)) := by
  by_cases h : window.game = none <;> simp [reset_game, h]

/-- C8. With a `NULL` file, and with a file from which no picker can be
constructed, `wordle_app_window_open` leaves the window, so its word picker and
its game, as it was; when construction succeeds the picker of the window is
the new picker and the game is reset with a word picked from the new picker. -/
theorem open_replaces_picker_only_on_success (window : WordleAppWindow)
    (lines : Option (List (List Char))) (draw : Nat) :
    wordle_app_window_open window none draw = window
    ∧ (wc_word_picker_new_random_line_file lines = none →
        wordle_app_window_open window (some lines) draw = window)
    ∧ (∀ new_picker, wc_word_picker_new_random_line_file lines = some new_picker →
        (wordle_app_window_open window (some lines) draw).word_picker = new_picker
        ∧ (wordle_app_window_open window (some lines) draw).game
            = wc_game_new (wc_word_picker_pick_word new_picker draw)
        ∧ wordle_app_window_open window (some lines) draw
            = reset_game { window with word_picker := new_picker } draw) := by
  refine ⟨rfl, ?_, ?_⟩
  · intro hnone
    simp [wordle_app_window_open, hnone]
  · intro new_picker hsome
    simp only [wordle_app_window_open, hsome]
    exact ⟨by rw [reset_game_word_picker], by rw [reset_game_game], trivial⟩

/-- Witness for C8: a file that cannot be read leaves the window as it was,
the one-line file HELLO gives a game on HELLO. -/
theorem open_replaces_picker_only_on_success_witness :
    wordle_app_window_open example_window (some none) 0 = example_window
    ∧ (wordle_app_window_open example_window (some (some ["HELLO".toList])) 7).game
        = wc_game_new "HELLO".toList :=
  ⟨(open_replaces_picker_only_on_success example_window none 0).2.1 (by decide),
   ((open_replaces_picker_only_on_success example_window (some ["HELLO".toList]) 7).2.2
      { words := ["HELLO".toList] } (by decide)).2.1⟩

/-- C9. A new game discards the old one: after `reset_game` the game of the
window is the game constructed by `wc_game_new`, without attempt limit and
without guess hints, from the one word picked from the picker of the window,
whatever the game was before; the grid has no children, and the word-length
label is visible and reads `Word length: N`, N the decimal length of that
word. -/
theorem reset_game_starts_fresh_game (window : WordleAppWindow) (draw : Nat) :
    (reset_game window draw).game
      = wc_game_new (wc_word_picker_pick_word window.word_picker draw)
    ∧ (wc_word_picker_pick_word window.word_picker draw ≠ [] →
        (reset_game window draw).game
          = some { word_to_guess := wc_word_picker_pick_word window.word_picker draw,
                   attempts_count_limit := none, guess_hints := [] })
    ∧ (reset_game window draw).word_picker = window.word_picker
    ∧ (reset_game window draw).hints.grid = []
    ∧ (reset_game window draw).hints.word_length_visible = true
    ∧ (reset_game window draw).hints.word_length_text
        = "Word length: ".toList
          ++ (toString (strlen (wc_word_picker_pick_word window.word_picker draw))).toList := by
  have hgame := reset_game_game window draw
  have hhints := reset_game_hints window draw
  refine ⟨hgame, ?_, ?_, ?_, ?_, ?_⟩
  · intro hword
    rw [hgame]
    simp [wc_game_new, Game.create, hword]
  · exact reset_game_word_picker window draw
  · rw [hhints]
    simp [wordle_hints_reset, wordle_hints_clear, wordle_hints_clear_loop_eq_nil]
  · rw [hhints]
    simp [wordle_hints_reset]
  · rw [hhints]
    simp only [wordle_hints_reset, sprintf_word_length, int_to_string]
    rfl

/-- Witness for C9: the second word of the picker, `wordlerust`, has ten
letters. -/
theorem reset_game_starts_fresh_game_witness :
    wc_word_picker_pick_word example_window.word_picker 3 ≠ []
    ∧ (reset_game example_window 3).game
        = some { word_to_guess := "wordlerust".toList, attempts_count_limit := none,
                 guess_hints := [] }
    ∧ (reset_game example_window 3).hints.word_length_text = "Word length: 10".toList :=
  ⟨by decide, (reset_game_starts_fresh_game example_window 3).2.1 (by decide),
   (reset_game_starts_fresh_game example_window 3).2.2.2.2.2⟩

/-! ## Theorems: the rows of the grid -/

theorem wordle_hints_add_guess_row_loop_eq (rows_count : Nat)
    (entries : List wc_guessed_letter_and_hint) :
    ∀ (x : Nat) (grid : List GridChild),
      wordle_hints_add_guess_row_loop rows_count x entries grid
        = grid ++ (entries.enumFrom x).map fun entry =>
            { column := entry.1, row := rows_count,
              label := generate_label_markup (get_letter_hint_color entry.2.hint)
                entry.2.letter } := by
  induction entries with
  | nil => intro x grid; simp [wordle_hints_add_guess_row_loop]
  | cons e rest ih =>
    intro x grid
    simp [wordle_hints_add_guess_row_loop, ih]

theorem wordle_hints_add_guess_row_grid (wordle_hints : WordleHints) (guess_hint : GuessHint) :
    (wordle_hints_add_guess_row wordle_hints guess_hint).grid
      = wordle_hints.grid ++ guess_row (grid_get_rows_count wordle_hints.grid) guess_hint := by
  simp [wordle_hints_add_guess_row, wordle_hints_add_guess_row_loop_eq, guess_row,
    wc_guess_hint_get_guessed_letters_and_hints]

theorem grid_get_rows_count_loop_append (a b : List GridChild) :
    ∀ max_row, grid_get_rows_count_loop (a ++ b) max_row
      = grid_get_rows_count_loop b (grid_get_rows_count_loop a max_row) := by
  induction a with
  | nil => intro m; rfl
  | cons c rest ih => intro m; simp [grid_get_rows_count_loop, ih]

theorem grid_get_rows_count_loop_ge (grid : List GridChild) :
    ∀ max_row, max_row ≤ grid_get_rows_count_loop grid max_row
      ∧ ∀ c ∈ grid, c.row ≤ grid_get_rows_count_loop grid max_row := by
  induction grid with
  | nil => intro m; simp [grid_get_rows_count_loop]
  | cons c rest ih =>
    intro m
    have h := ih (max m c.row)
    simp only [grid_get_rows_count_loop, List.mem_cons, forall_eq_or_imp]
    refine ⟨?_, ?_, h.2⟩
    · exact le_trans (le_max_left _ _) h.1
    · exact le_trans (le_max_right _ _) h.1

theorem grid_get_rows_count_loop_attained (grid : List GridChild) :
    ∀ max_row, grid_get_rows_count_loop grid max_row = max_row
      ∨ ∃ c ∈ grid, grid_get_rows_count_loop grid max_row = c.row := by
  induction grid with
  | nil => intro m; simp [grid_get_rows_count_loop]
  | cons c rest ih =>
    intro m
    simp only [grid_get_rows_count_loop, List.mem_cons, exists_eq_or_imp]
    rcases ih (max m c.row) with h | ⟨d, hd, h⟩
    · rcases le_total m c.row with hle | hle
      · right; left; rw [h]; exact max_eq_right hle
      · left; rw [h]; exact max_eq_left hle
    · right; right; exact ⟨d, hd, h⟩

theorem grid_get_rows_count_loop_same_row (row : Nat) (cells : List GridChild)
    (hrow : ∀ c ∈ cells, c.row = row) (hne : cells ≠ []) :
    ∀ max_row, max_row ≤ row → grid_get_rows_count_loop cells max_row = row := by
  intro m hm
  rcases grid_get_rows_count_loop_attained cells m with h | ⟨c, hc, h⟩
  · obtain ⟨c, hc⟩ := List.exists_mem_of_ne_nil cells hne
    have := (grid_get_rows_count_loop_ge cells m).2 c hc
    rw [hrow c hc] at this
    omega
  · rw [h, hrow c hc]

theorem guess_row_row (row : Nat) (guess_hint : GuessHint) :
    ∀ c ∈ guess_row row guess_hint, c.row = row := by
  intro c hc
  simp only [guess_row, List.mem_map] at hc
  obtain ⟨e, _, rfl⟩ := hc
  rfl

theorem guess_row_ne_nil (row : Nat) (guess_hint : GuessHint)
    (h : guess_hint.letters_and_hints ≠ []) : guess_row row guess_hint ≠ [] := by
  cases hl : guess_hint.letters_and_hints with
  | nil => exact absurd hl h
  | cons e rest => simp [guess_row, hl]

/-- Rendering guess hints one after the other, from a grid whose row count is
`j + 1`, puts them into the rows `j + 1`, `j + 2`, ... -/
theorem render_rows_from (guess_hints : List GuessHint) :
    ∀ (wordle_hints : WordleHints) (j : Nat),
      (∀ g ∈ guess_hints, g.letters_and_hints ≠ []) →
      grid_get_rows_count wordle_hints.grid = j + 1 →
      (guess_hints.foldl wordle_hints_add_guess_row wordle_hints).grid
        = wordle_hints.grid
          ++ ((guess_hints.enumFrom (j + 1)).map fun kg => guess_row kg.1 kg.2).flatten := by
  induction guess_hints with
  | nil => intro wh j _ _; simp
  | cons g rest ih =>
    intro wh j hne hcount
    have hgrid := wordle_hints_add_guess_row_grid wh g
    rw [hcount] at hgrid
    have hcount' : grid_get_rows_count (wordle_hints_add_guess_row wh g).grid = (j + 1) + 1 := by
      simp only [grid_get_rows_count] at hcount ⊢
      rw [hgrid, grid_get_rows_count_loop_append]
      rw [grid_get_rows_count_loop_same_row (j + 1) _ (guess_row_row _ _)
        (guess_row_ne_nil _ _ (hne g (List.mem_cons_self _ _))) _ (by omega)]
    have := ih (wordle_hints_add_guess_row wh g) (j + 1)
      (fun g' hg' => hne g' (List.mem_cons_of_mem _ hg')) hcount'
    simp only [List.foldl_cons, List.enumFrom_cons, List.map_cons, List.flatten_cons]
    rw [this, hgrid, List.append_assoc]

/-- C10. For every grid and every guess hint with n (letter, hint) pairs,
`wordle_hints_add_guess_row` appends exactly n children, the pair at position
x as the label of column x, all in the row `grid_get_rows_count` gives: 1 on an
empty grid and else 1 plus the largest row of a child of the grid, so strictly
below every child already there.  After a reset the k-th rendered guess hint
occupies row k (guess hints have at least one letter). -/
theorem add_guess_row_fills_next_row (wordle_hints : WordleHints) (guess_hint : GuessHint)
    (guess_word_length : Nat) (guess_hints : List GuessHint)
    (hne : ∀ g ∈ guess_hints, g.letters_and_hints ≠ []) :
    (wordle_hints_add_guess_row wordle_hints guess_hint).grid
      = wordle_hints.grid ++ guess_row (grid_get_rows_count wordle_hints.grid) guess_hint
    ∧ (wordle_hints_add_guess_row wordle_hints guess_hint).grid.length
      = wordle_hints.grid.length + guess_hint.letters_and_hints.length
    ∧ (∀ (x : Nat) (entry : wc_guessed_letter_and_hint),
        guess_hint.letters_and_hints[x]? = some entry →
        (wordle_hints_add_guess_row wordle_hints guess_hint).grid[wordle_hints.grid.length + x]?
          = some { column := x, row := grid_get_rows_count wordle_hints.grid,
                   label := generate_label_markup (get_letter_hint_color entry.hint)
                     entry.letter })
    ∧ (∀ c ∈ wordle_hints.grid, c.row < grid_get_rows_count wordle_hints.grid)
    ∧ (wordle_hints.grid = [] → grid_get_rows_count wordle_hints.grid = 1)
    ∧ (wordle_hints.grid ≠ [] →
        ∃ c ∈ wordle_hints.grid, grid_get_rows_count wordle_hints.grid = c.row + 1)
    ∧ (guess_hints.foldl wordle_hints_add_guess_row
          (wordle_hints_reset wordle_hints guess_word_length)).grid
        = ((guess_hints.enumFrom 1).map fun kg => guess_row kg.1 kg.2).flatten := by
  have hgrid := wordle_hints_add_guess_row_grid wordle_hints guess_hint
  refine ⟨hgrid, ?_, ?_, ?_, ?_, ?_, ?_⟩
  · rw [hgrid]
    simp [guess_row]
  · intro x entry hentry
    rw [hgrid, List.getElem?_append_right (Nat.le_add_right _ _)]
    simp [guess_row, List.getElem?_enumFrom, hentry]
  · intro c hc
    have := (grid_get_rows_count_loop_ge wordle_hints.grid 0).2 c hc
    simp only [grid_get_rows_count]
    omega
  · intro hempty
    rw [hempty]
    rfl
  · intro hnonempty
    rcases grid_get_rows_count_loop_attained wordle_hints.grid 0 with h | ⟨c, hc, h⟩
    · obtain ⟨c, hc⟩ := List.exists_mem_of_ne_nil _ hnonempty
      have := (grid_get_rows_count_loop_ge wordle_hints.grid 0).2 c hc
      exact ⟨c, hc, by simp only [grid_get_rows_count]; omega⟩
    · exact ⟨c, hc, by simp only [grid_get_rows_count]; omega⟩
  · have hreset : (wordle_hints_reset wordle_hints guess_word_length).grid = [] := by
      simp [wordle_hints_reset, wordle_hints_clear, wordle_hints_clear_loop_eq_nil]
    have := render_rows_from guess_hints (wordle_hints_reset wordle_hints guess_word_length) 0
      hne (by rw [hreset]; rfl)
    rw [this, hreset]
    simp

/-- Witness for C10: after a reset, the guesses SPEED and ERASE against the
target ERASE are rendered in the rows 1 and 2. -/
theorem add_guess_row_fills_next_row_witness :
    (∀ g ∈ [compute_guess_hint "ERASE".toList "SPEED".toList,
            compute_guess_hint "ERASE".toList "ERASE".toList], g.letters_and_hints ≠ [])
    ∧ ([compute_guess_hint "ERASE".toList "SPEED".toList,
        compute_guess_hint "ERASE".toList "ERASE".toList].foldl wordle_hints_add_guess_row
          (wordle_hints_reset example_window.hints 5)).grid
        = guess_row 1 (compute_guess_hint "ERASE".toList "SPEED".toList)
          ++ guess_row 2 (compute_guess_hint "ERASE".toList "ERASE".toList) :=
  ⟨by decide,
   by
    have h := (add_guess_row_fills_next_row example_window.hints
      (compute_guess_hint "ERASE".toList "SPEED".toList) 5
      [compute_guess_hint "ERASE".toList "SPEED".toList,
       compute_guess_hint "ERASE".toList "ERASE".toList] (by decide)).2.2.2.2.2.2
    simpa using h⟩

/-! ## Theorems: the buffers of the lost message -/

theorem sprintf_no_directive (text : List Char) (h : '%' ∉ text) (args : List printf_arg) :
    sprintf text args = text := by
  induction text with
  | nil => simp [sprintf]
  | cons c rest ih =>
    have hc : c ≠ '%' := fun e => h (by simp [e])
    have hrest : '%' ∉ rest := fun e => h (List.mem_cons_of_mem _ e)
    rw [sprintf]
    · rw [ih hrest]
    all_goals intros; simp_all

theorem sprintf_one_directive (a b word : List Char) (ha : '%' ∉ a) (hb : '%' ∉ b) :
    sprintf (a ++ ("%s".toList ++ b)) [printf_arg.str word] = a ++ (word ++ b) := by
  induction a with
  | nil =>
    show sprintf ('%' :: 's' :: b) [printf_arg.str word] = word ++ b
    rw [sprintf, sprintf_no_directive b hb]
  | cons c rest ih =>
    have hc : c ≠ '%' := fun e => ha (by simp [e])
    have hrest : '%' ∉ rest := fun e => ha (List.mem_cons_of_mem _ e)
    rw [List.cons_append, sprintf]
    · rw [ih hrest]; rfl
    all_goals intros; simp_all

/-- With a format that has exactly one `%s`, every byte the `sprintf` of
`on_game_lost` writes, its terminating NUL included, is inside the allocation
of `length` bytes. -/
theorem loose_message_sprintf_in_bounds (a b word : List Char) (ha : '%' ∉ a) (hb : '%' ∉ b) :
    ∀ i ∈ loose_message_sprintf_indices (a ++ ("%s".toList ++ b)) word,
      i < loose_message_length (a ++ ("%s".toList ++ b)) word := by
  intro i hi
  simp only [loose_message_sprintf_indices, sprintf_one_directive a b word ha hb, strlen,
    List.mem_range, List.length_append] at hi
  simp only [loose_message_length, strlen, List.length_append]
  have : "%s".toList.length = 2 := rfl
  omega

/-- For every format and word the index of `loose_message[length] = 0` is the
allocated size itself, one past the last byte of the allocation. -/
theorem loose_message_terminator_index (loose_message_format word : List Char) :
    loose_message_length loose_message_format word
        ∈ loose_message_written_indices loose_message_format word
    ∧ ¬ ∀ i ∈ loose_message_written_indices loose_message_format word,
          i < loose_message_length loose_message_format word := by
  have hmem : loose_message_length loose_message_format word
      ∈ loose_message_written_indices loose_message_format word := by
    simp [loose_message_written_indices]
  exact ⟨hmem, fun h => Nat.lt_irrefl _ (h _ hmem)⟩

/-- C11, at the target word ERASE and the untranslated format: `on_game_lost`
allocates 31 bytes for `loose_message`; its `sprintf` writes the indices 0 to
29, inside the allocation, and `loose_message[length] = 0` writes index 31,
which is not below the allocated size. -/
theorem loose_message_terminator_out_of_bounds :
    loose_message_length (gettext "You lost! The word was %s.".toList) "ERASE".toList = 31
    ∧ loose_message_written_indices (gettext "You lost! The word was %s.".toList) "ERASE".toList
        = List.range 30 ++ [31]
    ∧ ¬ ∀ i ∈ loose_message_written_indices (gettext "You lost! The word was %s.".toList)
            "ERASE".toList,
          i < loose_message_length (gettext "You lost! The word was %s.".toList)
            "ERASE".toList := by
  refine ⟨by decide, by decide, ?_⟩
  intro h
  exact absurd (h 31 (by decide)) (by decide)

/-- While the length of the markup fits a signed char, the allocation is one
byte more than the markup. -/
theorem text_with_foreground_color_size_fits (text color : List Char)
    (h : 13 + strlen color + 2 + strlen text + 7 ≤ 127) :
    text_with_foreground_color_size text color
      = 13 + strlen color + 2 + strlen text + 7 + 1 := by
  simp only [strlen] at h ⊢
  simp only [text_with_foreground_color_size, text_with_foreground_color_length_eq, to_size_t,
    to_char]
  omega

/-- C12, at the lost message of the target word of 79 letters A and the color
red: the markup has 128 characters and needs 129 bytes, the `char length` is
-128, and the size handed to `malloc` is 2^64 - 127, not 129. -/
theorem text_with_foreground_color_size_long_word :
    strlen (text_with_foreground_color_markup
        (loose_message (gettext "You lost! The word was %s.".toList) long_word) "red".toList) + 1
      = 129
    ∧ text_with_foreground_color_length
        (loose_message (gettext "You lost! The word was %s.".toList) long_word) "red".toList
      = -128
    ∧ text_with_foreground_color_size
        (loose_message (gettext "You lost! The word was %s.".toList) long_word) "red".toList
      = 2 ^ 64 - 127
    ∧ text_with_foreground_color_size
        (loose_message (gettext "You lost! The word was %s.".toList) long_word) "red".toList
      ≠ 13 + strlen "red".toList + 2
          + strlen (loose_message (gettext "You lost! The word was %s.".toList) long_word)
          + 7 + 1 := by
  have htext : strlen (loose_message (gettext "You lost! The word was %s.".toList) long_word)
      = 103 := by
    rw [loose_message_untranslated]
    simp [strlen, long_word]
  have hlength : text_with_foreground_color_length
      (loose_message (gettext "You lost! The word was %s.".toList) long_word) "red".toList
      = -128 := by
    rw [text_with_foreground_color_length_eq]
    simp only [strlen] at htext
    rw [htext]
    decide
  have hsize : text_with_foreground_color_size
      (loose_message (gettext "You lost! The word was %s.".toList) long_word) "red".toList
      = 2 ^ 64 - 127 := by
    rw [text_with_foreground_color_size, hlength]
    decide
  refine ⟨?_, hlength, hsize, ?_⟩
  · rw [text_with_foreground_color_markup_length, htext]
    rfl
  · rw [hsize, htext]
    decide

end Wordle
